import Mathlib

/-!
Shallow embedding of the transition-scoring and greedy-sequencing core of
the spotify-playlist-sorter repository (src/app/playlist_sorter.py), together
with theorems settling the specification claims about it.

Numbers are modelled by the rationals; a missing field (pandas NaN) is
modelled by an Option that is none.
-/

namespace PlaylistSorter

/-- Track record as produced by the scraper: the id, display name and artist
are always present (rows lacking them are skipped at scrape time); the
Camelot key, BPM and energy may be missing (NaN). -/
structure Track where
  id : String
  track : String
  artist : String
  camelot : Option String
  bpm : Option ℚ
  energy : Option ℚ
deriving DecidableEq, Repr

/-- Key code string for number and letter, as the Python f-string builds it. -/
def camelotKey (num : Nat) (letter : String) : String :=
  toString num ++ letter

/-- Embedding of SpotifyPlaylistSorter._build_camelot_map: for each number
1..12 and letter A/B, the neighbors are the same number with the other
letter, then the previous number (12 for 1) and the next number (1 for 12)
with the same letter. The dict is modelled as an association list in
insertion order. -/
def camelot_map : List (String × List String) :=
  (List.range 12).flatMap (fun i =>
    let num := i + 1
    ["A", "B"].map (fun letter =>
      let other_letter := if letter == "A" then "B" else "A"
      let prev_num := if num == 1 then 12 else num - 1
      let next_num := if num == 12 then 1 else num + 1
      (camelotKey num letter,
        [camelotKey num other_letter,
         camelotKey prev_num letter,
         camelotKey next_num letter])))

/-- Dict lookup on the Camelot map: some neighbor list when the key is
recognized, none otherwise. -/
def camelotLookup (k : String) : Option (List String) :=
  (camelot_map.find? (fun p => p.1 == k)).map Prod.snd

/-- Key-compatibility flag of calculate_transition_score: false when either
key is missing or track1's key is not in the Camelot map, otherwise whether
track2's key is in the neighbor list of track1's key. -/
def key_compatible (t1 t2 : Track) : Bool :=
  match t1.camelot, t2.camelot with
  | some k1, some k2 =>
    match camelotLookup k1 with
    | some neighbors => neighbors.contains k2
    | none => false
  | _, _ => false

/-- Key multiplier of calculate_transition_score: 1.5 when compatible,
0.5 otherwise (including the missing/unrecognized cases). -/
def key_multiplier (t1 t2 : Track) : ℚ :=
  if key_compatible t1 t2 then 3/2 else 1/2

/-- BPM difference of calculate_transition_score; none models the
float infinity used when either BPM is missing. -/
def bpm_diff (t1 t2 : Track) : Option ℚ :=
  match t1.bpm, t2.bpm with
  | some b1, some b2 => some |b1 - b2|
  | _, _ => none

/-- BPM score of calculate_transition_score: 0 when either BPM is missing,
otherwise max(0, 1 - diff/20). -/
def bpm_score (t1 t2 : Track) : ℚ :=
  match t1.bpm, t2.bpm with
  | some b1, some b2 => max 0 (1 - |b1 - b2| / 20)
  | _, _ => 0

/-- Energy score of calculate_transition_score: neutral 0.5 when either
energy is missing; otherwise, with diff = energy2 - energy1, rises and small
dips (diff >= -0.1) score max(0, 1 - |diff|*0.5) and larger drops score
max(0, 1 - |diff|*1.5). -/
def energy_score (t1 t2 : Track) : ℚ :=
  match t1.energy, t2.energy with
  | some e1, some e2 =>
    let energy_diff := e2 - e1
    if energy_diff ≥ -(1/10) then max 0 (1 - |energy_diff| * (1/2))
    else max 0 (1 - |energy_diff| * (3/2))
  | _, _ => 1/2

/-- Embedding of SpotifyPlaylistSorter.calculate_transition_score: the base
score 0.6*bpm_score + 0.4*energy_score is multiplied by the key multiplier,
then by 1.1 when the keys are compatible and equal, then by 1.1 when the BPM
difference is at most 3 (a missing BPM gives an infinite difference, so no
bonus). Note pandas equality on two NaN keys is false, but in that case
key_compatible is already false, so comparing the Options is equivalent. -/
def calculate_transition_score (t1 t2 : Track) : ℚ :=
  let base_score := bpm_score t1 t2 * (6/10) + energy_score t1 t2 * (4/10)
  let final1 := base_score * key_multiplier t1 t2
  let final2 := if key_compatible t1 t2 && (t1.camelot == t2.camelot)
                then final1 * (11/10) else final1
  match bpm_diff t1 t2 with
  | some d => if d ≤ 3 then final2 * (11/10) else final2
  | none => final2

/-! Reference definition of the score, following the words of spec section
4.1, to be compared with the embedding of the source code above. -/

/-- Spec 4.1 key term: keyCompatible is false if either key is missing or
the first key is not a recognized code, and otherwise holds exactly when the
second key is in the adjacency list of the first. -/
def spec_keyCompatible (a b : Track) : Bool :=
  match a.camelot, b.camelot with
  | some ka, some kb =>
    match camelotLookup ka with
    | some adj => decide (kb ∈ adj)
    | none => false
  | _, _ => false

/-- Spec 4.1 key term: multiplier 1.5 if compatible else 0.5. -/
def spec_keyMultiplier (a b : Track) : ℚ :=
  if spec_keyCompatible a b then 3/2 else 1/2

/-- Spec 4.1 BPM term: bpmDiff is the absolute tempo difference, infinite
(none) when either BPM is missing. -/
def spec_bpmDiff (a b : Track) : Option ℚ :=
  match a.bpm, b.bpm with
  | some x, some y => some |x - y|
  | _, _ => none

/-- Spec 4.1 BPM term: bpmScore = max(0, 1 - bpmDiff/20), or 0 when a BPM
is missing. -/
def spec_bpmScore (a b : Track) : ℚ :=
  match spec_bpmDiff a b with
  | some d => max 0 (1 - d / 20)
  | none => 0

/-- Spec 4.1 energy term: 0.5 when either energy is missing; else with
delta = b.energy - a.energy, max(0, 1 - |delta|*0.5) when delta >= -0.1 and
max(0, 1 - |delta|*1.5) when delta < -0.1. -/
def spec_energyScore (a b : Track) : ℚ :=
  match a.energy, b.energy with
  | some x, some y =>
    let delta := y - x
    if delta ≥ -(1/10) then max 0 (1 - |delta| * (1/2))
    else max 0 (1 - |delta| * (3/2))
  | _, _ => 1/2

/-- Reference score of spec 4.1: base = 0.6*bpmScore + 0.4*energyScore,
final = base * keyMultiplier, with two independent multiplicative 1.1
bonuses, one for a compatible identical key and one for bpmDiff <= 3. -/
def score_spec (a b : Track) : ℚ :=
  let base := (6/10) * spec_bpmScore a b + (4/10) * spec_energyScore a b
  let keyBonus : ℚ :=
    if spec_keyCompatible a b = true ∧ a.camelot = b.camelot then 11/10 else 1
  let bpmBonus : ℚ :=
    match spec_bpmDiff a b with
    | some d => if d ≤ 3 then 11/10 else 1
    | none => 1
  base * spec_keyMultiplier a b * keyBonus * bpmBonus

lemma spec_keyCompatible_eq (a b : Track) :
    spec_keyCompatible a b = key_compatible a b := by
  unfold spec_keyCompatible key_compatible
  cases ha : a.camelot with
  | none => rfl
  | some ka =>
    cases hb : b.camelot with
    | none => rfl
    | some kb =>
      cases h : camelotLookup ka with
      | none => simp [h]
      | some adj => simp [h, List.elem_iff]

lemma spec_keyMultiplier_eq (a b : Track) :
    spec_keyMultiplier a b = key_multiplier a b := by
  unfold spec_keyMultiplier key_multiplier
  rw [spec_keyCompatible_eq]

lemma spec_bpmDiff_eq (a b : Track) : spec_bpmDiff a b = bpm_diff a b := rfl

lemma spec_bpmScore_eq (a b : Track) : spec_bpmScore a b = bpm_score a b := by
  unfold spec_bpmScore spec_bpmDiff bpm_score
  cases a.bpm <;> cases b.bpm <;> rfl

lemma spec_energyScore_eq (a b : Track) :
    spec_energyScore a b = energy_score a b := by
  unfold spec_energyScore energy_score
  cases a.energy <;> cases b.energy <;> rfl

end PlaylistSorter

namespace PlaylistSorter

/-- C1: for every pair of track records, calculate_transition_score agrees
with the reference definition of spec section 4.1 (key multiplier 0.5 on a
missing or unrecognized first key and 1.5/0.5 by adjacency otherwise;
bpmScore = max(0, 1 - diff/20) with 0 and infinite diff on a missing BPM;
energyScore 0.5 when an energy is missing and otherwise the asymmetric
rise/drop formula; final = (0.6*bpmScore + 0.4*energyScore)*keyMultiplier
with a 1.1 bonus for a compatible identical key and a 1.1 bonus for a BPM
difference of at most 3). -/
theorem calculate_transition_score_eq_spec (a b : Track) :
    calculate_transition_score a b = score_spec a b := by
  simp only [calculate_transition_score, score_spec, spec_bpmScore_eq,
    spec_energyScore_eq, spec_keyMultiplier_eq, spec_bpmDiff_eq,
    spec_keyCompatible_eq]
  have hcond : (key_compatible a b && (a.camelot == b.camelot)) = true ↔
      (key_compatible a b = true ∧ a.camelot = b.camelot) := by
    simp
  cases hd : bpm_diff a b with
  | none =>
    simp only [hd]
    by_cases hc : key_compatible a b = true ∧ a.camelot = b.camelot
    · rw [if_pos (hcond.mpr hc), if_pos hc]; ring
    · rw [if_neg (fun h => hc (hcond.mp h)), if_neg hc]; ring
  | some d =>
    simp only [hd]
    by_cases hc : key_compatible a b = true ∧ a.camelot = b.camelot
    · rw [if_pos (hcond.mpr hc), if_pos hc]
      by_cases hb : d ≤ 3
      · rw [if_pos hb, if_pos hb]; ring
      · rw [if_neg hb, if_neg hb]; ring
    · rw [if_neg (fun h => hc (hcond.mp h)), if_neg hc]
      by_cases hb : d ≤ 3
      · rw [if_pos hb, if_pos hb]; ring
      · rw [if_neg hb, if_neg hb]; ring

/-- C7: the Camelot map built by _build_camelot_map has exactly the 24 key
codes 1A..12B as its domain, without duplicates, and sends each key nL to
exactly the 3 neighbors: n with the opposite letter, and the predecessor and
successor of n (wrapping 1 to 12 and 12 to 1) with the same letter. The map
is a pure value in this embedding, built once and never mutated. -/
theorem camelot_map_characterization :
    camelot_map =
      [("1A", ["1B", "12A", "2A"]), ("1B", ["1A", "12B", "2B"]),
       ("2A", ["2B", "1A", "3A"]), ("2B", ["2A", "1B", "3B"]),
       ("3A", ["3B", "2A", "4A"]), ("3B", ["3A", "2B", "4B"]),
       ("4A", ["4B", "3A", "5A"]), ("4B", ["4A", "3B", "5B"]),
       ("5A", ["5B", "4A", "6A"]), ("5B", ["5A", "4B", "6B"]),
       ("6A", ["6B", "5A", "7A"]), ("6B", ["6A", "5B", "7B"]),
       ("7A", ["7B", "6A", "8A"]), ("7B", ["7A", "6B", "8B"]),
       ("8A", ["8B", "7A", "9A"]), ("8B", ["8A", "7B", "9B"]),
       ("9A", ["9B", "8A", "10A"]), ("9B", ["9A", "8B", "10B"]),
       ("10A", ["10B", "9A", "11A"]), ("10B", ["10A", "9B", "11B"]),
       ("11A", ["11B", "10A", "12A"]), ("11B", ["11A", "10B", "12B"]),
       ("12A", ["12B", "11A", "1A"]), ("12B", ["12A", "11B", "1B"])] ∧
    (camelot_map.map Prod.fst).Nodup ∧
    camelot_map.length = 24 := by
  refine ⟨by decide, by decide, by decide⟩

/-- Helper for C4: no key of the Camelot map appears in its own neighbor
list. -/
lemma camelot_map_no_self : ∀ p ∈ camelot_map, p.1 ∉ p.2 := by decide

/-- Helper for C4: a successful lookup never returns a list containing the
key that was looked up. -/
lemma camelotLookup_no_self (k : String) (adj : List String)
    (h : camelotLookup k = some adj) : k ∉ adj := by
  unfold camelotLookup at h
  cases hf : camelot_map.find? (fun p => p.1 == k) with
  | none => rw [hf] at h; exact absurd h (by simp)
  | some p =>
    rw [hf] at h
    have hmem := List.mem_of_find?_eq_some hf
    have hpk : p.1 = k := by simpa using List.find?_some hf
    have hadj : p.2 = adj := by simpa using h
    have := camelot_map_no_self p hmem
    rw [hpk, hadj] at this
    exact this

/-- C4: no Camelot key is in its own adjacency list; hence a pair of tracks
carrying the same present recognized key is computed as incompatible with
key multiplier 0.5, and the identical-key 1.1 bonus branch of
calculate_transition_score is dead: the score always equals the form without
that bonus. -/
theorem identical_key_bonus_never_taken :
    (∀ p ∈ camelot_map, p.1 ∉ p.2) ∧
    (∀ t1 t2 : Track, ∀ k : String, t1.camelot = some k → t2.camelot = some k →
      key_compatible t1 t2 = false ∧ key_multiplier t1 t2 = 1/2) ∧
    (∀ t1 t2 : Track,
      calculate_transition_score t1 t2 =
        (let final1 := (bpm_score t1 t2 * (6/10) + energy_score t1 t2 * (4/10)) *
            key_multiplier t1 t2
         match bpm_diff t1 t2 with
         | some d => if d ≤ 3 then final1 * (11/10) else final1
         | none => final1)) := by
  have hsame : ∀ t1 t2 : Track, ∀ k : String, t1.camelot = some k →
      t2.camelot = some k → key_compatible t1 t2 = false := by
    intro t1 t2 k h1 h2
    unfold key_compatible
    cases hl : camelotLookup k with
    | none => simp [h1, h2, hl]
    | some adj =>
      have hns := camelotLookup_no_self k adj hl
      simp [h1, h2, hl, List.elem_iff, hns]
  refine ⟨camelot_map_no_self, ?_, ?_⟩
  · intro t1 t2 k h1 h2
    have hkc := hsame t1 t2 k h1 h2
    exact ⟨hkc, by unfold key_multiplier; rw [hkc]; rfl⟩
  · intro t1 t2
    have hdead : (key_compatible t1 t2 && (t1.camelot == t2.camelot)) = false := by
      cases hkc : key_compatible t1 t2 with
      | false => rfl
      | true =>
        cases heq : (t1.camelot == t2.camelot) with
        | false => rfl
        | true =>
          exfalso
          have hcc : t1.camelot = t2.camelot := by simpa using heq
          have hk1 : ∃ k, t1.camelot = some k := by
            unfold key_compatible at hkc
            cases h1 : t1.camelot with
            | none => rw [h1] at hkc; exact absurd hkc (by simp)
            | some k => exact ⟨k, rfl⟩
          obtain ⟨k, hk⟩ := hk1
          have := hsame t1 t2 k hk (hcc ▸ hk)
          rw [hkc] at this
          exact absurd this (by simp)
    simp only [calculate_transition_score, hdead, Bool.false_eq_true, if_false]

/-! Greedy sequencer (sort_playlist). The pandas idxmax picks the first row
attaining the maximal score, and dropping that label removes the row while
preserving the order of the rest; selectBest models one loop iteration. -/

/-- One greedy step: the first track of the list with maximal score under f,
together with the list of the remaining tracks in their original order.
Returns none exactly on the empty list. -/
def selectBest (f : Track → ℚ) : List Track → Option (Track × List Track)
  | [] => none
  | t :: ts =>
    match selectBest f ts with
    | none => some (t, [])
    | some (b, rest) => if f b > f t then some (b, t :: rest) else some (t, ts)

lemma selectBest_nil (f : Track → ℚ) : selectBest f [] = none := rfl

lemma selectBest_eq_none {f : Track → ℚ} {ts : List Track}
    (h : selectBest f ts = none) : ts = [] := by
  cases ts with
  | nil => rfl
  | cons t ts =>
    exfalso
    unfold selectBest at h
    cases hs : selectBest f ts with
    | none => rw [hs] at h; exact absurd h (by simp)
    | some p =>
      rw [hs] at h
      obtain ⟨b, rest⟩ := p
      by_cases hgt : f b > f t
      · simp [hgt] at h
      · simp [hgt] at h

lemma selectBest_perm {f : Track → ℚ} {ts : List Track} {b : Track}
    {rest : List Track} (h : selectBest f ts = some (b, rest)) :
    (b :: rest).Perm ts := by
  induction ts generalizing b rest with
  | nil => exact absurd h (by simp [selectBest_nil])
  | cons t ts ih =>
    unfold selectBest at h
    cases hs : selectBest f ts with
    | none =>
      rw [hs] at h
      have hts : ts = [] := selectBest_eq_none hs
      have hb : b = t ∧ rest = [] := by simpa using h.symm
      rw [hb.1, hb.2, hts]
    | some p =>
      obtain ⟨b', rest'⟩ := p
      rw [hs] at h
      have hperm' : (b' :: rest').Perm ts := ih hs
      by_cases hgt : f b' > f t
      · have hb : b' = b ∧ t :: rest' = rest := by simpa [hgt] using h
        rw [← hb.1, ← hb.2]
        exact (List.Perm.swap t b' rest').trans (hperm'.cons t)
      · have hb : t = b ∧ ts = rest := by simpa [hgt] using h
        rw [← hb.1, ← hb.2]

lemma selectBest_length {f : Track → ℚ} {ts : List Track} {b : Track}
    {rest : List Track} (h : selectBest f ts = some (b, rest)) :
    rest.length + 1 = ts.length := by
  have := (selectBest_perm h).length_eq
  simpa using this

/-- Body of the while loop of sort_playlist with an explicit fuel bound on
the number of iterations: each iteration appends the best-scoring remaining
track and removes it from the remaining set. The loop of the source runs
until the remaining set is empty, which takes exactly one iteration per
remaining track, so fuel = length of the remaining list reproduces it. -/
def sortLoopFuel (fuel : Nat) (cur : Track) (ts : List Track) : List String :=
  match fuel with
  | 0 => []
  | fuel + 1 =>
    match selectBest (calculate_transition_score cur) ts with
    | none => []
    | some (b, rest) => b.id :: sortLoopFuel fuel b rest

/-- The while loop of sort_playlist, run to completion. -/
def sortLoop (cur : Track) (ts : List Track) : List String :=
  sortLoopFuel ts.length cur ts

lemma sortLoopFuel_perm (fuel : Nat) :
    ∀ (cur : Track) (ts : List Track), ts.length ≤ fuel →
      (sortLoopFuel fuel cur ts).Perm (ts.map Track.id) := by
  induction fuel with
  | zero =>
    intro cur ts hle
    have : ts = [] := List.length_eq_zero.mp (Nat.le_zero.mp hle)
    rw [this]
    rfl
  | succ fuel ih =>
    intro cur ts hle
    unfold sortLoopFuel
    cases hs : selectBest (calculate_transition_score cur) ts with
    | none =>
      rw [selectBest_eq_none hs]
      rfl
    | some p =>
      obtain ⟨b, rest⟩ := p
      have hlen := selectBest_length hs
      have hrest : rest.length ≤ fuel := by omega
      have hperm := selectBest_perm hs
      exact ((ih b rest hrest).cons b.id).trans (hperm.map Track.id)

lemma sortLoop_perm (cur : Track) (ts : List Track) :
    (sortLoop cur ts).Perm (ts.map Track.id) :=
  sortLoopFuel_perm ts.length cur ts (Nat.le_refl _)

/-- Embedding of SpotifyPlaylistSorter.sort_playlist: empty data or an
anchor id absent from the loaded tracks gives the empty result; otherwise
the anchor id is placed first and the loop greedily appends the remaining
track with the best transition from the current one; afterwards any track id
that was never placed is appended in original order. -/
def sort_playlist (tracks : List Track) (start_track_id : String) :
    List String :=
  if tracks.isEmpty then []
  else
    match tracks.find? (fun t => t.id == start_track_id) with
    | none => []
    | some anchor =>
      let remaining := tracks.filter (fun t => t.id != start_track_id)
      let sorted_ids := start_track_id :: sortLoop anchor remaining
      let missing := (tracks.map Track.id).filter
        (fun i => !(sorted_ids.contains i))
      sorted_ids ++ missing

/-- Eligibility filter applied by load_playlist: rows missing the Camelot
key, the BPM or the energy are dropped before sorting (the id is always
present, since the scraper skips rows without one). -/
def eligible_tracks (tracks : List Track) : List Track :=
  tracks.filter (fun t => t.camelot.isSome && t.bpm.isSome && t.energy.isSome)

lemma map_id_filter_ne (s : String) (ts : List Track) :
    (ts.filter (fun t => t.id != s)).map Track.id
      = (ts.map Track.id).filter (fun i => i != s) := by
  induction ts with
  | nil => rfl
  | cons t ts ih =>
    by_cases h : t.id = s
    · simp [List.filter_cons, h, ih]
    · simp [List.filter_cons, h, bne_iff_ne, ih]

/-- C2: on eligible tracks with pairwise distinct ids and an anchor among
them, sort_playlist returns a permutation of the track ids, of length equal
to the number of tracks, starting with the anchor id. -/
theorem sort_playlist_permutation (tracks : List Track)
    (start_track_id : String)
    (hnd : (tracks.map Track.id).Nodup)
    (_helig : ∀ t ∈ tracks,
      t.camelot.isSome ∧ t.bpm.isSome ∧ t.energy.isSome)
    (hmem : start_track_id ∈ tracks.map Track.id) :
    (sort_playlist tracks start_track_id).Perm (tracks.map Track.id) ∧
    (sort_playlist tracks start_track_id).length = tracks.length ∧
    (sort_playlist tracks start_track_id).head? = some start_track_id := by
  obtain ⟨anchor, hanc, hancid⟩ :
      ∃ a, tracks.find? (fun t => t.id == start_track_id) = some a ∧
        a.id = start_track_id := by
    have hex : ∃ t ∈ tracks, (t.id == start_track_id) = true := by
      obtain ⟨t, ht, hid⟩ := List.mem_map.mp hmem
      exact ⟨t, ht, by simp [hid]⟩
    cases hf : tracks.find? (fun t => t.id == start_track_id) with
    | none =>
      exfalso
      have hsome := List.find?_isSome.mpr hex
      rw [hf] at hsome
      exact absurd hsome (by simp)
    | some a => exact ⟨a, rfl, by simpa using List.find?_some hf⟩
  have hisE : tracks.isEmpty = false := by
    cases tracks with
    | nil => simp at hmem
    | cons x xs => rfl
  have hperm_sorted :
      (start_track_id ::
        sortLoop anchor (tracks.filter (fun t => t.id != start_track_id))).Perm
        (tracks.map Track.id) := by
    have h1 := sortLoop_perm anchor (tracks.filter (fun t => t.id != start_track_id))
    have h3 := List.perm_cons_erase hmem
    rw [hnd.erase_eq_filter] at h3
    refine (h1.cons start_track_id).trans ?_
    rw [map_id_filter_ne]
    exact h3.symm
  have hmissing : (tracks.map Track.id).filter
      (fun i => !((start_track_id ::
        sortLoop anchor (tracks.filter (fun t => t.id != start_track_id))).contains i))
      = [] := by
    apply List.filter_eq_nil_iff.mpr
    intro i hi
    have : i ∈ start_track_id ::
        sortLoop anchor (tracks.filter (fun t => t.id != start_track_id)) :=
      hperm_sorted.mem_iff.mpr hi
    simp [List.elem_iff, this]
  have heq : sort_playlist tracks start_track_id
      = start_track_id ::
        sortLoop anchor (tracks.filter (fun t => t.id != start_track_id)) := by
    simp only [sort_playlist, hisE, Bool.false_eq_true, if_false, hanc]
    rw [hmissing]
    exact List.append_nil _
  refine ⟨heq ▸ hperm_sorted, ?_, ?_⟩
  · rw [heq]
    have hlen := hperm_sorted.length_eq
    simpa using hlen
  · rw [heq]
    rfl

/-- C3: an anchor id that identifies no track of the eligible set makes
sort_playlist return the empty sequence, never a partial ordering. -/
theorem sort_playlist_absent_anchor_empty (tracks : List Track)
    (start_track_id : String)
    (habs : start_track_id ∉ (eligible_tracks tracks).map Track.id) :
    sort_playlist (eligible_tracks tracks) start_track_id = [] := by
  cases hE : (eligible_tracks tracks).isEmpty with
  | true => simp [sort_playlist, hE]
  | false =>
    have hfind : (eligible_tracks tracks).find?
        (fun t => t.id == start_track_id) = none := by
      cases hf : (eligible_tracks tracks).find?
          (fun t => t.id == start_track_id) with
      | none => rfl
      | some a =>
        exfalso
        have hmem := List.mem_of_find?_eq_some hf
        have hid : a.id = start_track_id := by simpa using List.find?_some hf
        exact habs (List.mem_map.mpr ⟨a, hmem, hid⟩)
    simp [sort_playlist, hE, hfind]

/-! Score bounds and comparisons. -/

lemma key_multiplier_pos (t1 t2 : Track) : 0 < key_multiplier t1 t2 := by
  unfold key_multiplier
  split <;> norm_num

lemma key_multiplier_le (t1 t2 : Track) : key_multiplier t1 t2 ≤ 3/2 := by
  unfold key_multiplier
  split <;> norm_num

lemma bpm_score_bounds (t1 t2 : Track) :
    0 ≤ bpm_score t1 t2 ∧ bpm_score t1 t2 ≤ 1 := by
  unfold bpm_score
  cases t1.bpm with
  | none => exact ⟨le_refl 0, by norm_num⟩
  | some b1 =>
    cases t2.bpm with
    | none => exact ⟨le_refl 0, by norm_num⟩
    | some b2 =>
      constructor
      · exact le_max_left 0 _
      · apply max_le (by norm_num)
        have : (0:ℚ) ≤ |b1 - b2| / 20 := by positivity
        linarith

lemma energy_score_bounds (t1 t2 : Track) :
    0 ≤ energy_score t1 t2 ∧ energy_score t1 t2 ≤ 1 := by
  cases h1 : t1.energy with
  | none =>
    simp only [energy_score, h1]
    norm_num
  | some e1 =>
    cases h2 : t2.energy with
    | none =>
      simp only [energy_score, h1, h2]
      norm_num
    | some e2 =>
      simp only [energy_score, h1, h2]
      by_cases h : e2 - e1 ≥ -(1/10)
      · rw [if_pos h]
        refine ⟨le_max_left 0 _, max_le (by norm_num) ?_⟩
        have : (0:ℚ) ≤ |e2 - e1| * (1/2) := by positivity
        linarith
      · rw [if_neg h]
        refine ⟨le_max_left 0 _, max_le (by norm_num) ?_⟩
        have : (0:ℚ) ≤ |e2 - e1| * (3/2) := by positivity
        linarith

/-- C10: with any combination of present or missing fields, the transition
score lies in the closed interval from 0 to 1.815 = 1 * 1.5 * 1.1 * 1.1. -/
theorem calculate_transition_score_bounds (t1 t2 : Track) :
    0 ≤ calculate_transition_score t1 t2 ∧
    calculate_transition_score t1 t2 ≤ (1.815 : ℚ) := by
  obtain ⟨hbs0, hbs1⟩ := bpm_score_bounds t1 t2
  obtain ⟨hes0, hes1⟩ := energy_score_bounds t1 t2
  have hkm0 := key_multiplier_pos t1 t2
  have hkm1 := key_multiplier_le t1 t2
  have hbase0 : 0 ≤ bpm_score t1 t2 * (6/10) + energy_score t1 t2 * (4/10) := by
    nlinarith
  have hbase1 : bpm_score t1 t2 * (6/10) + energy_score t1 t2 * (4/10) ≤ 1 := by
    nlinarith
  have hf0 : 0 ≤ (bpm_score t1 t2 * (6/10) + energy_score t1 t2 * (4/10)) *
      key_multiplier t1 t2 := by nlinarith
  have hf1 : (bpm_score t1 t2 * (6/10) + energy_score t1 t2 * (4/10)) *
      key_multiplier t1 t2 ≤ 3/2 := by nlinarith
  simp only [calculate_transition_score]
  cases hd : bpm_diff t1 t2 with
  | none =>
    simp only [hd]
    by_cases hc : (key_compatible t1 t2 && (t1.camelot == t2.camelot)) = true
    · rw [if_pos hc]; constructor <;> nlinarith
    · rw [if_neg hc]; constructor <;> nlinarith
  | some d =>
    simp only [hd]
    by_cases hc : (key_compatible t1 t2 && (t1.camelot == t2.camelot)) = true
    · rw [if_pos hc]
      by_cases hble : d ≤ 3
      · rw [if_pos hble]; constructor <;> nlinarith
      · rw [if_neg hble]; constructor <;> nlinarith
    · rw [if_neg hc]
      by_cases hble : d ≤ 3
      · rw [if_pos hble]; constructor <;> nlinarith
      · rw [if_neg hble]; constructor <;> nlinarith

/-- Monotonicity of the score in the energy term when all other components
agree: shared helper for the energy-asymmetry claim. -/
lemma score_lt_of_energy_lt (t1 t2 t3 t4 : Track)
    (hkc : key_compatible t1 t2 = key_compatible t3 t4)
    (hkm : key_multiplier t1 t2 = key_multiplier t3 t4)
    (hcam : (t1.camelot == t2.camelot) = (t3.camelot == t4.camelot))
    (hbs : bpm_score t1 t2 = bpm_score t3 t4)
    (hbd : bpm_diff t1 t2 = bpm_diff t3 t4)
    (hes : energy_score t1 t2 < energy_score t3 t4) :
    calculate_transition_score t1 t2 < calculate_transition_score t3 t4 := by
  have hkm0 := key_multiplier_pos t3 t4
  simp only [calculate_transition_score, hkc, hkm, hcam, hbs, hbd]
  cases hd : bpm_diff t3 t4 with
  | none =>
    simp only [hd]
    by_cases hc : (key_compatible t3 t4 && (t3.camelot == t4.camelot)) = true
    · rw [if_pos hc, if_pos hc]; nlinarith
    · rw [if_neg hc, if_neg hc]; nlinarith
  | some d =>
    simp only [hd]
    by_cases hc : (key_compatible t3 t4 && (t3.camelot == t4.camelot)) = true
    · rw [if_pos hc, if_pos hc]
      by_cases hble : d ≤ 3
      · rw [if_pos hble, if_pos hble]; nlinarith
      · rw [if_neg hble, if_neg hble]; nlinarith
    · rw [if_neg hc, if_neg hc]
      by_cases hble : d ≤ 3
      · rw [if_pos hble, if_pos hble]; nlinarith
      · rw [if_neg hble, if_neg hble]; nlinarith

/-- C8: for two tracks with the same key and the same tempo whose energies
differ by 0.3, the rising transition scores strictly higher than the
falling one. -/
theorem energy_rise_beats_fall (a b : Track) (e : ℚ)
    (hkey : a.camelot = b.camelot) (hbpm : a.bpm = b.bpm)
    (hea : a.energy = some e) (heb : b.energy = some (e + 3/10)) :
    calculate_transition_score b a < calculate_transition_score a b := by
  have habs : |(3:ℚ)/10| = 3/10 := by norm_num [abs_of_nonneg]
  have hesab : energy_score a b = 17/20 := by
    unfold energy_score
    simp only [hea, heb]
    rw [if_pos (by norm_num)]
    norm_num [abs_of_nonneg]
  have hesba : energy_score b a = 11/20 := by
    unfold energy_score
    simp only [hea, heb]
    rw [if_neg (by norm_num)]
    have : e - (e + 3/10) = -(3/10) := by ring
    rw [this]
    norm_num [abs_of_nonpos]
  apply score_lt_of_energy_lt
  · unfold key_compatible
    rw [hkey]
  · unfold key_multiplier key_compatible
    rw [hkey]
  · rw [hkey]
  · unfold bpm_score
    rw [hbpm]
  · unfold bpm_diff
    rw [hbpm]
  · rw [hesab, hesba]
    norm_num

/-! Sample tracks used by the concrete witnesses and counterexamples. -/

/-- Track with key 8A, 120 BPM, energy 0.5. -/
def trackFrom : Track := ⟨"id1", "From", "Artist1", some "8A", some 120, some (1/2)⟩

/-- Target with the identical key 8A, the same 120 BPM and the same energy. -/
def trackSameKey : Track := ⟨"id2", "Same", "Artist2", some "8A", some 120, some (1/2)⟩

/-- Target with the merely compatible key 9A, a BPM gap of 5 (above the
bonus threshold 3) and the same energy. -/
def trackCompatKey : Track := ⟨"id3", "Compat", "Artist3", some "9A", some 115, some (1/2)⟩

lemma score_trackFrom_trackSameKey :
    calculate_transition_score trackFrom trackSameKey = 11/20 := by
  have hkc : key_compatible trackFrom trackSameKey = false := by decide
  have hbs : bpm_score trackFrom trackSameKey = 1 := by
    simp only [bpm_score, trackFrom, trackSameKey]
    rw [show (120:ℚ) - 120 = 0 by norm_num, abs_zero]
    norm_num
  have hes : energy_score trackFrom trackSameKey = 1 := by
    simp only [energy_score, trackFrom, trackSameKey]
    rw [if_pos (by norm_num)]
    rw [show (1:ℚ)/2 - 1/2 = 0 by norm_num, abs_zero]
    norm_num
  have hbd : bpm_diff trackFrom trackSameKey = some 0 := by
    simp only [bpm_diff, trackFrom, trackSameKey]
    rw [show (120:ℚ) - 120 = 0 by norm_num, abs_zero]
  simp only [calculate_transition_score, hkc, hbs, hes, hbd, Bool.false_and,
    Bool.false_eq_true, if_false, key_multiplier]
  rw [if_pos (by norm_num : (0:ℚ) ≤ 3)]
  norm_num

lemma score_trackFrom_trackCompatKey :
    calculate_transition_score trackFrom trackCompatKey = 51/40 := by
  have hkc : key_compatible trackFrom trackCompatKey = true := by decide
  have hbs : bpm_score trackFrom trackCompatKey = 3/4 := by
    simp only [bpm_score, trackFrom, trackCompatKey]
    rw [show |(120:ℚ) - 115| = 5 by
      rw [show (120:ℚ) - 115 = 5 by norm_num]
      exact abs_of_nonneg (by norm_num)]
    norm_num
  have hes : energy_score trackFrom trackCompatKey = 1 := by
    simp only [energy_score, trackFrom, trackCompatKey]
    rw [if_pos (by norm_num)]
    rw [show (1:ℚ)/2 - 1/2 = 0 by norm_num, abs_zero]
    norm_num
  have hbd : bpm_diff trackFrom trackCompatKey = some 5 := by
    simp only [bpm_diff, trackFrom, trackCompatKey]
    rw [show |(120:ℚ) - 115| = 5 by
      rw [show (120:ℚ) - 115 = 5 by norm_num]
      exact abs_of_nonneg (by norm_num)]
  have hcam : (trackFrom.camelot == trackCompatKey.camelot) = false := by decide
  simp only [calculate_transition_score, hkc, hbs, hes, hbd, hcam,
    Bool.and_false, Bool.false_eq_true, if_false, key_multiplier, if_true]
  rw [if_neg (by norm_num : ¬ (5:ℚ) ≤ 3)]
  norm_num

/-- C5 evaluation at the failing input: the transition trackFrom to
trackSameKey has identical keys 8A and a BPM difference of 0, yet scores
11/20 = 0.55, strictly below the 51/40 = 1.275 of the transition trackFrom
to trackCompatKey, whose keys 8A and 9A are not identical, whose BPM gap is
5 and which receives no bonus; the energy terms of the two transitions are
equal. The identical-key pair is scored as incompatible (multiplier 0.5 and
no identical-key bonus) because no key is in its own adjacency list, so the
claimed strict ordering fails on the code. -/
theorem identical_key_close_bpm_scores_lower :
    calculate_transition_score trackFrom trackSameKey = 11/20 ∧
    calculate_transition_score trackFrom trackCompatKey = 51/40 ∧
    energy_score trackFrom trackSameKey = energy_score trackFrom trackCompatKey ∧
    calculate_transition_score trackFrom trackSameKey
      < calculate_transition_score trackFrom trackCompatKey := by
  refine ⟨score_trackFrom_trackSameKey, score_trackFrom_trackCompatKey, ?_, ?_⟩
  · have h1 : energy_score trackFrom trackSameKey = 1 := by
      simp only [energy_score, trackFrom, trackSameKey]
      rw [if_pos (by norm_num)]
      rw [show (1:ℚ)/2 - 1/2 = 0 by norm_num, abs_zero]
      norm_num
    have h2 : energy_score trackFrom trackCompatKey = 1 := by
      simp only [energy_score, trackFrom, trackCompatKey]
      rw [if_pos (by norm_num)]
      rw [show (1:ℚ)/2 - 1/2 = 0 by norm_num, abs_zero]
      norm_num
    rw [h1, h2]
  · rw [score_trackFrom_trackSameKey, score_trackFrom_trackCompatKey]
    norm_num

/-! Energy normalization of _scrape_songdata_io: the scraped Energy column
is converted to numbers and, when the COLUMN MAXIMUM exceeds 1.0, every
value of the column is divided by 10 (a 1-10 scale is assumed); otherwise
the column is left unchanged. -/

/-- Maximum of a pandas numeric series, none on an empty series. -/
def series_max : List ℚ → Option ℚ
  | [] => none
  | x :: xs => some (xs.foldl max x)

/-- Embedding of the Energy normalization block of _scrape_songdata_io. -/
def normalize_energies (raw : List ℚ) : List ℚ :=
  match series_max raw with
  | some m => if m > 1 then raw.map (· / 10) else raw
  | none => raw

lemma foldl_max_is_ub (xs : List ℚ) :
    ∀ x : ℚ, x ≤ xs.foldl max x ∧ ∀ y ∈ xs, y ≤ xs.foldl max x := by
  induction xs with
  | nil => intro x; exact ⟨le_refl x, by simp⟩
  | cons z zs ih =>
    intro x
    simp only [List.foldl_cons]
    have h := ih (max x z)
    refine ⟨le_trans (le_max_left x z) h.1, ?_⟩
    intro y hy
    rcases List.mem_cons.mp hy with hz | hmem
    · subst hz; exact le_trans (le_max_right x y) h.1
    · exact h.2 y hmem

lemma foldl_max_mem (xs : List ℚ) :
    ∀ x : ℚ, xs.foldl max x ∈ x :: xs := by
  induction xs with
  | nil => intro x; simp
  | cons z zs ih =>
    intro x
    simp only [List.foldl_cons]
    have h := ih (max x z)
    rcases List.mem_cons.mp h with heq | hmem
    · rcases max_choice x z with hx | hz
      · rw [heq, hx]; exact List.mem_cons_self _ _
      · rw [heq, hz]; exact List.mem_cons_of_mem _ (List.mem_cons_self _ _)
    · exact List.mem_cons_of_mem _ (List.mem_cons_of_mem _ hmem)

/-- C6 counterexample: on the scraped column [0.5, 5] the code divides the
WHOLE column by 10 because its maximum exceeds 1, so the value 0.5, although
not greater than 1, is not used unchanged: it becomes 0.05. -/
theorem normalize_energies_changes_small_value :
    normalize_energies [1/2, 5] = [1/20, 1/2] ∧
    ¬ ((1:ℚ)/2 > 1) ∧ ((1:ℚ)/20 ≠ 1/2) := by
  refine ⟨?_, by norm_num, by norm_num⟩
  have hmax : series_max [1/2, 5] = some 5 := by
    simp only [series_max, List.foldl]
    rw [max_eq_right (by norm_num : (1:ℚ)/2 ≤ 5)]
  simp only [normalize_energies, hmax]
  rw [if_pos (by norm_num : (5:ℚ) > 1)]
  norm_num

/-- C6 amended: if any scraped energy exceeds 1 the whole column is divided
by 10, otherwise the column is unchanged; when the raw values lie in [0,10]
every resulting energy lies in [0,1]. -/
theorem normalize_energies_amended (raw : List ℚ)
    (hrange : ∀ x ∈ raw, 0 ≤ x ∧ x ≤ 10) :
    ((∃ x ∈ raw, 1 < x) → normalize_energies raw = raw.map (· / 10)) ∧
    ((∀ x ∈ raw, x ≤ 1) → normalize_energies raw = raw) ∧
    (∀ y ∈ normalize_energies raw, 0 ≤ y ∧ y ≤ 1) := by
  cases raw with
  | nil =>
    refine ⟨?_, ?_, ?_⟩
    · rintro ⟨x, hx, -⟩; exact absurd hx (by simp)
    · intro; rfl
    · intro y hy
      exact absurd hy (by simp [normalize_energies, series_max])
  | cons a as =>
    have hmax : series_max (a :: as) = some (as.foldl max a) := rfl
    have hub := foldl_max_is_ub as a
    have hall : ∀ y ∈ a :: as, y ≤ as.foldl max a := by
      intro y hy
      rcases List.mem_cons.mp hy with h | h
      · exact h ▸ hub.1
      · exact hub.2 y h
    have hmem : as.foldl max a ∈ a :: as := foldl_max_mem as a
    by_cases hgt : as.foldl max a > 1
    · have hnorm : normalize_energies (a :: as) = (a :: as).map (· / 10) := by
        simp only [normalize_energies, hmax]
        rw [if_pos hgt]
      refine ⟨fun _ => hnorm, ?_, ?_⟩
      · intro hle
        exact absurd hgt (not_lt.mpr (hle _ hmem))
      · intro y hy
        rw [hnorm] at hy
        obtain ⟨z, hz, hzy⟩ := List.mem_map.mp hy
        obtain ⟨hz0, hz10⟩ := hrange z hz
        constructor
        · rw [← hzy]; positivity
        · rw [← hzy]; linarith
    · have hnorm : normalize_energies (a :: as) = a :: as := by
        simp only [normalize_energies, hmax]
        rw [if_neg hgt]
      refine ⟨?_, fun _ => hnorm, ?_⟩
      · rintro ⟨x, hx, h1x⟩
        exact absurd (lt_of_lt_of_le h1x (hall x hx)) hgt
      · intro y hy
        rw [hnorm] at hy
        exact ⟨(hrange y hy).1, le_trans (hall y hy) (not_lt.mp hgt)⟩

/-! Transition analysis (get_transition_analysis). -/

/-- Python int() truncation toward zero on a rational. -/
def pyInt (q : ℚ) : ℤ := if 0 ≤ q then ⌊q⌋ else ⌈q⌉

/-- One entry of the transition report of get_transition_analysis. -/
inductive ReportEntry where
  | notEnough (message : String)
  | missingTrack (index : Nat) (message : String)
  | pairScored (index : Nat)
      (track1_name track2_name track1_artist track2_artist : String)
      (key1 key2 : Option String) (keyCompatibleFlag perfectKeyMatch : Bool)
      (bpm1 bpm2 : Option ℤ) (bpmDiffInt : Option ℤ)
      (energy1 energy2 energyDiff : Option ℚ) (score : ℚ)
  | pairUnscored (index : Nat)
      (track1_name track2_name track1_artist track2_artist : String)
      (key1 key2 : Option String) (bpm1 bpm2 energy1 energy2 : Option ℚ)
      (message : String)
  | summaryScored (average_score : ℚ) (valid_transitions total_transitions : Nat)
  | summaryNoValid (message : String) (valid_transitions total_transitions : Nat)
deriving DecidableEq, Repr

/-- The key compatibility recomputed inside get_transition_analysis: a
truthiness check on the first key (an empty string is falsy in Python),
then membership of the second key in the adjacency list of the first. -/
def analysis_key_compatible (k1 k2 : String) : Bool :=
  if k1 ≠ "" then
    match camelotLookup k1 with
    | some adj => adj.contains k2
    | none => false
  else false

/-- One iteration of the loop of get_transition_analysis: looks up both
ids in the track map, emits a placeholder entry if a record is missing, an
unscored entry if essential fields are missing, and a fully scored entry
otherwise; the second component is the score counted into the summary. -/
def transition_entry (tracks : List Track) (i : Nat) (id1 id2 : String) :
    ReportEntry × Option ℚ :=
  match tracks.find? (fun t => t.id == id1),
      tracks.find? (fun t => t.id == id2) with
  | some t1, some t2 =>
    match t1.camelot, t1.bpm, t1.energy, t2.camelot, t2.bpm, t2.energy with
    | some k1, some b1, some e1, some k2, some b2, some e2 =>
      let score := calculate_transition_score t1 t2
      (ReportEntry.pairScored (i+1) t1.track t2.track t1.artist t2.artist
        (some k1) (some k2) (analysis_key_compatible k1 k2) (k1 == k2)
        (some (pyInt b1)) (some (pyInt b2)) (some |pyInt b1 - pyInt b2|)
        (some e1) (some e2) (some (e2 - e1)) score, some score)
    | _, _, _, _, _, _ =>
      (ReportEntry.pairUnscored (i+1) t1.track t2.track t1.artist t2.artist
        t1.camelot t2.camelot t1.bpm t2.bpm t1.energy t2.energy
        "Missing essential data for one or both tracks", none)
  | _, _ =>
    (ReportEntry.missingTrack (i+1)
      ("Skipping transition " ++ toString (i+1) ++ ": Track data missing for "
        ++ id1 ++ " or " ++ id2), none)

/-- Embedding of SpotifyPlaylistSorter.get_transition_analysis: empty track
data gives an empty report; fewer than 2 ids give a single "not enough
tracks" message; otherwise one entry per adjacent pair followed by a summary
entry carrying the average score over the scoreable pairs, or a "no valid
transitions" message when none were scoreable. -/
def get_transition_analysis (tracks : List Track) (sorted_ids : List String) :
    List ReportEntry :=
  if tracks.isEmpty then []
  else if sorted_ids.length < 2 then
    [ReportEntry.notEnough "Not enough tracks for transition analysis."]
  else
    let pairs := sorted_ids.zip sorted_ids.tail
    let steps := ((List.range pairs.length).zip pairs).map
      (fun ip => transition_entry tracks ip.1 ip.2.1 ip.2.2)
    let entries := steps.map Prod.fst
    let scores := steps.filterMap Prod.snd
    let valid_transitions := scores.length
    let total_transitions := sorted_ids.length - 1
    if 0 < valid_transitions then
      entries ++ [ReportEntry.summaryScored
        (scores.sum / (valid_transitions : ℚ)) valid_transitions total_transitions]
    else
      entries ++ [ReportEntry.summaryNoValid
        "No valid transitions could be scored (check scraped data)."
        valid_transitions total_transitions]

/-- C9: with non-empty loaded track data and fewer than 2 input ids, the
analysis is exactly one "not enough tracks" entry: no per-pair entry and no
summary entry carrying a score. -/
theorem analysis_short_input (tracks : List Track) (sorted_ids : List String)
    (hne : tracks ≠ []) (hlen : sorted_ids.length < 2) :
    get_transition_analysis tracks sorted_ids
      = [ReportEntry.notEnough "Not enough tracks for transition analysis."] ∧
    (get_transition_analysis tracks sorted_ids).length = 1 ∧
    ∀ e ∈ get_transition_analysis tracks sorted_ids,
      (∀ avg v tot, e ≠ ReportEntry.summaryScored avg v tot) ∧
      (∀ i n1 n2 a1 a2 k1 k2 kc pm b1 b2 bd e1 e2 ed s,
        e ≠ ReportEntry.pairScored i n1 n2 a1 a2 k1 k2 kc pm b1 b2 bd e1 e2 ed s) := by
  have hE : tracks.isEmpty = false := by
    cases tracks with
    | nil => exact absurd rfl hne
    | cons x xs => rfl
  have heq : get_transition_analysis tracks sorted_ids
      = [ReportEntry.notEnough "Not enough tracks for transition analysis."] := by
    simp [get_transition_analysis, hE, hlen]
  refine ⟨heq, by rw [heq]; rfl, ?_⟩
  intro e he
  rw [heq] at he
  have : e = ReportEntry.notEnough "Not enough tracks for transition analysis." := by
    simpa using he
  subst this
  refine ⟨fun avg v tot h => ?_, fun i n1 n2 a1 a2 k1 k2 kc pm b1 b2 bd e1 e2 ed s h => ?_⟩
  · cases h
  · cases h

/-! Concrete witnesses for the theorems with hypotheses. -/

/-- Track with the same key and BPM as trackFrom and energy 0.8, which is
0.5 + 0.3. -/
def trackRise : Track := ⟨"id4", "Rise", "Artist4", some "8A", some 120, some (4/5)⟩

/-- Track lacking an energy value, hence dropped by the eligibility filter. -/
def trackNoEnergy : Track := ⟨"id9", "NoEnergy", "Artist9", some "8A", some 100, none⟩

/-- Witness for C2 at a concrete two-track collection with anchor id1. -/
theorem sort_playlist_permutation_witness :
    (sort_playlist [trackFrom, trackCompatKey] "id1").Perm
      ([trackFrom, trackCompatKey].map Track.id) ∧
    (sort_playlist [trackFrom, trackCompatKey] "id1").length
      = [trackFrom, trackCompatKey].length ∧
    (sort_playlist [trackFrom, trackCompatKey] "id1").head? = some "id1" :=
  sort_playlist_permutation [trackFrom, trackCompatKey] "id1"
    (by decide) (by decide) (by decide)

/-- Witness for C3: the anchor id9 exists in the scraped collection but is
dropped by the eligibility filter for lacking an energy value, and the sort
returns the empty sequence. -/
theorem sort_playlist_absent_anchor_empty_witness :
    sort_playlist (eligible_tracks [trackFrom, trackNoEnergy]) "id9" = [] :=
  sort_playlist_absent_anchor_empty [trackFrom, trackNoEnergy] "id9" (by decide)

/-- Witness for C4 at a concrete identical-key pair. -/
theorem identical_key_bonus_never_taken_witness :
    key_compatible trackFrom trackSameKey = false ∧
    key_multiplier trackFrom trackSameKey = 1/2 :=
  identical_key_bonus_never_taken.2.1 trackFrom trackSameKey "8A" rfl rfl

/-- Witness for C8 at concrete tracks with energies 0.5 and 0.8. -/
theorem energy_rise_beats_fall_witness :
    calculate_transition_score trackRise trackFrom
      < calculate_transition_score trackFrom trackRise :=
  energy_rise_beats_fall trackFrom trackRise (1/2) rfl rfl rfl
    (by rw [show (1:ℚ)/2 + 3/10 = 4/5 by norm_num]; rfl)

/-- Witness for the amended C6 at the concrete column [0.5, 5]. -/
theorem normalize_energies_amended_witness :
    normalize_energies [1/2, 5] = ([1/2, 5] : List ℚ).map (· / 10) :=
  (normalize_energies_amended [1/2, 5] (by norm_num [List.forall_mem_cons])).1
    ⟨5, by norm_num [List.mem_cons], by norm_num⟩

/-- Witness for C9 at a one-element id sequence and non-empty track data. -/
theorem analysis_short_input_witness :
    get_transition_analysis [trackFrom] ["id1"]
      = [ReportEntry.notEnough "Not enough tracks for transition analysis."] ∧
    (get_transition_analysis [trackFrom] ["id1"]).length = 1 ∧
    ∀ e ∈ get_transition_analysis [trackFrom] ["id1"],
      (∀ avg v tot, e ≠ ReportEntry.summaryScored avg v tot) ∧
      (∀ i n1 n2 a1 a2 k1 k2 kc pm b1 b2 bd e1 e2 ed s,
        e ≠ ReportEntry.pairScored i n1 n2 a1 a2 k1 k2 kc pm b1 b2 bd e1 e2 ed s) :=
  analysis_short_input [trackFrom] ["id1"] (by decide) (by decide)

end PlaylistSorter
